import Mathlib

/-!
Verification of the `devhaven` tool-launching subsystem
(`src/src-tauri/src/system.rs`).

The Rust module is embedded shallowly:

* Rust `String`/`str` operations (`contains`, `replace`) are modelled as
  executable functions over `List Char`; this matches Rust's byte-wise
  semantics because byte-wise UTF-8 comparison and substring search agree
  with code-point-wise comparison and search on valid UTF-8 text.
* `std::process` spawning is modelled by an oracle
  `Spawn : String → List String → Except IOError ExitStatus` mapping a
  program name and argument vector to the observed outcome.
* The filesystem is modelled by a record of read-only probes (`is_file`,
  `is_dir`, `read_dir`, `exists`), and the environment by
  `Env : String → Option String`.
* Conditional compilation (`#[cfg(target_os = ...)]`) is modelled by a
  `Platform` parameter.
-/

namespace Devhaven

/-! ## Character-list string primitives (model of Rust `str` operations) -/

/-- Model of Rust `str::contains` for a non-empty pattern (an empty
pattern is always contained): does `pat` occur as a contiguous
subsequence of `s`? -/
def containsSub (pat : List Char) : List Char → Bool
  | [] => pat.isEmpty
  | c :: rest => pat.isPrefixOf (c :: rest) || containsSub pat rest

/-- Model of Rust `str::replace` for the non-empty pattern `p0 :: ptl`:
replace every non-overlapping occurrence, scanning left to right.  The
`fuel` argument (instantiated with the input length, an upper bound on
the number of steps) only makes the recursion structural, so that the
kernel can evaluate the function on concrete inputs; when the fuel is at
least the input length it never runs out. -/
def replaceFuel (p0 : Char) (ptl rep : List Char) : Nat → List Char → List Char
  | _, [] => []
  | 0, s => s
  | fuel + 1, c :: rest =>
    if (p0 :: ptl).isPrefixOf (c :: rest) then
      rep ++ replaceFuel p0 ptl rep fuel (rest.drop ptl.length)
    else
      c :: replaceFuel p0 ptl rep fuel rest

/-- Number of non-overlapping occurrences of the pattern `p0 :: ptl`,
scanning left to right (the occurrences that Rust `str::replace`
replaces).  Fuel as in `replaceFuel`. -/
def occFuel (p0 : Char) (ptl : List Char) : Nat → List Char → Nat
  | _, [] => 0
  | 0, _ => 0
  | fuel + 1, c :: rest =>
    if (p0 :: ptl).isPrefixOf (c :: rest) then
      occFuel p0 ptl fuel (rest.drop ptl.length) + 1
    else
      occFuel p0 ptl fuel rest

/-- Model of Rust `String::contains(pat)`. -/
def rustContains (s pat : String) : Bool := containsSub pat.data s.data

/-- Model of Rust `String::replace(pat, rep)` (all occurrences replaced;
the empty-pattern case is never exercised by this module, which only
replaces the literal placeholder token and the quote character). -/
def rustReplace (s pat rep : String) : String :=
  match pat.data with
  | [] => s
  | p0 :: ptl => String.mk (replaceFuel p0 ptl rep.data s.data.length s.data)

/-- Number of non-overlapping occurrences of `pat` in `s` that
`rustReplace` replaces. -/
def rustOccurrences (s pat : String) : Nat :=
  match pat.data with
  | [] => 0
  | p0 :: ptl => occFuel p0 ptl s.data.length s.data

/-- The literal placeholder token recognized inside argument templates. -/
def placeholderToken : String := "\x7bpath\x7d"

/-! ## Command Argument Builder (`build_command_arguments`) -/

/-- The loop body of `build_command_arguments`: iterate over the template
entries, pushing each entry (with the placeholder substituted when
present) onto `resolved`, and recording in `inserted_path` whether any
substitution occurred. -/
def build_loop (path : String) : List String → List String → Bool → List String × Bool
  | [], resolved, inserted_path => (resolved, inserted_path)
  | argument :: rest, resolved, inserted_path =>
    if rustContains argument placeholderToken then
      build_loop path rest (resolved ++ [rustReplace argument placeholderToken path]) true
    else
      build_loop path rest (resolved ++ [argument]) inserted_path

/-- Embedding of `build_command_arguments` (system.rs lines 139-159). -/
def build_command_arguments (arguments : Option (List String)) (path : String) : List String :=
  let state :=
    match arguments with
    | some arguments => build_loop path arguments [] false
    | none => ([], false)
  if !state.2 then state.1 ++ [path] else state.1

/-- Total number of placeholder occurrences that a call
`build_command_arguments arguments path` substitutes: Rust's `replace`
substitutes every occurrence in every template entry containing one. -/
def substitutionCount (arguments : Option (List String)) : Nat :=
  match arguments with
  | none => 0
  | some l => (l.map (fun a => rustOccurrences a placeholderToken)).sum

/-- Per-entry effect of the builder loop. -/
def substEntry (path : String) (a : String) : String :=
  if rustContains a placeholderToken then rustReplace a placeholderToken path else a

/-! ## Platform, process and filesystem model -/

/-- The compile-time platform choice (`#[cfg(target_os = ...)]`). -/
inductive Platform
  | macos
  | windows
  | linux
deriving DecidableEq

/-- Model of `std::process::ExitStatus`: the numeric exit code; Rust's
`ExitStatus::success()` holds exactly for code `0`. -/
structure ExitStatus where
  code : Int
deriving DecidableEq

/-- Rust `ExitStatus::success()`. -/
def ExitStatus.success (s : ExitStatus) : Bool := s.code == 0

/-- Model of `std::io::Error`: its `Display` text and
`raw_os_error()` code. -/
structure IOError where
  text : String
  rawOsError : Option Int
deriving DecidableEq

/-- Outcome of one attempt by the OS to spawn a process. -/
abbrev SpawnResult := Except IOError ExitStatus

/-- Oracle for `Command::new(program).args(arguments).status()`: what the
OS does for a given program name and argument vector. -/
abbrev Spawn := String → List String → SpawnResult

/-- Read-only filesystem oracle: `is_file`, `is_dir`, `exists` probes and
`read_dir` (entry names of a directory; `none` models an `Err`). -/
structure FS where
  isFile : String → Bool
  isDir : String → Bool
  pathExists : String → Bool
  readDir : String → Option (List String)

/-- Environment-variable oracle (`std::env::var` / `var_os`). -/
abbrev Env := String → Option String

/-! ## Path model (`std::path`)

Paths stay plain strings; `file_name` is modelled as the characters after
the last separator (`/` or `\`), which is faithful for the inputs this
module builds (it ignores `std::path`'s special-casing of `..` and of
trailing separators, which no claim exercises). -/

/-- Path separator characters (Windows accepts both). -/
def isSepChar (c : Char) : Bool := c = '/' || c = '\\'

/-- Model of `Path::file_name`. -/
def fileName (s : String) : Option String :=
  let name := (s.data.reverse.takeWhile (fun c => !isSepChar c)).reverse
  if name.isEmpty then none else some (String.mk name)

/-- Split a reversed file name at its first dot (= the last dot of the
file name): `some (revExt, revStem)`, or `none` when there is no dot. -/
def revSplitDot : List Char → Option (List Char × List Char)
  | [] => none
  | c :: rest =>
    if c = '.' then some ([], rest)
    else (revSplitDot rest).map (fun p => (c :: p.1, p.2))

/-- Model of `Path::extension` on a file name: the portion after the last
dot, provided the portion before that dot is non-empty. -/
def extensionOfName (name : List Char) : Option String :=
  match revSplitDot name.reverse with
  | none => none
  | some p => if p.2.isEmpty then none else some (String.mk p.1.reverse)

/-- Model of `Path::extension`. -/
def pathExtension (s : String) : Option String :=
  match fileName s with
  | none => none
  | some name => extensionOfName name.data

/-- Model of `Path::file_stem` on a file name: the portion before the
last dot, or the whole name when that portion would be empty or there is
no dot. -/
def fileStemOfName (name : List Char) : List Char :=
  match revSplitDot name.reverse with
  | none => name
  | some p => if p.2.isEmpty then name else p.2.reverse

/-- Model of `Path::with_extension`: replace the extension of the file
name; a path without a file name is returned unchanged. -/
def pathWithExtension (s ext : String) : String :=
  match fileName s with
  | none => s
  | some name =>
    let dir := s.data.take (s.data.length - name.data.length)
    let stem := fileStemOfName name.data
    String.mk (dir ++ (if ext.data.isEmpty then stem else stem ++ '.' :: ext.data))

/-- Model of `Path::join` with a relative right-hand operand. -/
def pathJoin (dir name : String) : String := dir ++ "/" ++ name

/-! ## Shell-aware launcher (`system.rs` lines 161-282) -/

/-- Embedding of `run_command_with_shell_support` (lines 161-174); the
`spawner` argument stands for `spawn_command_with_shell_support` of the
build platform. -/
def run_command_with_shell_support (spawner : Spawn) (command_path : String)
    (arguments : List String) ( spawn_error_prefix failure_message : String) :
    Except String Unit :=
  match spawner command_path arguments with
  | .error err => .error ( spawn_error_prefix ++ " " ++ err.text)
  | .ok status => if status.success then .ok () else .error failure_message

/-- The closed dispatch enum `WindowsCommandKind` (lines 252-258). -/
inductive WindowsCommandKind
  | direct
  | cmd
  | powerShell
deriving DecidableEq

/-- Rust `u8::to_ascii_lowercase` on a character. -/
def asciiLowerChar (c : Char) : Char :=
  if 'A' ≤ c ∧ c ≤ 'Z' then Char.ofNat (c.toNat + 32) else c

/-- Rust `to_ascii_lowercase` / `to_lowercase` on the ASCII strings this
module inspects. -/
def toAsciiLower (s : String) : String := String.mk (s.data.map asciiLowerChar)

/-- Embedding of `resolve_windows_command_kind` (lines 207-218). -/
def resolve_windows_command_kind (command_path : String) : Option WindowsCommandKind :=
  match pathExtension command_path with
  | none => none
  | some ext =>
    let e := toAsciiLower ext
    if e = "cmd" || e = "bat" then some .cmd
    else if e = "ps1" then some .powerShell
    else none

/-- Embedding of `should_try_windows_fallback` (lines 244-250). -/
def should_try_windows_fallback (error : IOError) : Bool :=
  error.rawOsError == some 2 || error.rawOsError == some 3 ||
    error.rawOsError == some 193 || error.rawOsError == some 216

/-- The fixed fallback probe table of lines 229-235: extension and
re-classified kind, in probe order (script interpreters first, then
direct binaries). -/
def windowsFallbackTable : List (String × WindowsCommandKind) :=
  [("cmd", .cmd), ("bat", .cmd), ("ps1", .powerShell), ("exe", .direct), ("com", .direct)]

/-- Embedding of `resolve_windows_command_fallback` (lines 220-242). -/
def resolve_windows_command_fallback (is_file : String → Bool)
    (command_path : String) (error : IOError) : Option (WindowsCommandKind × String) :=
  if (pathExtension command_path).isSome || !should_try_windows_fallback error then none
  else
    windowsFallbackTable.findSome? (fun entry =>
      let candidate := pathWithExtension command_path entry.1
      if is_file candidate then some (entry.2, candidate) else none)

/-- Embedding of `execute_windows_command` (lines 260-282). -/
def execute_windows_command (osSpawn : Spawn) (kind : WindowsCommandKind)
    (executable : String) (arguments : List String) : SpawnResult :=
  match kind with
  | .direct => osSpawn executable arguments
  | .cmd => osSpawn "cmd.exe" ("/C" :: executable :: arguments)
  | .powerShell =>
    osSpawn "powershell.exe"
      ("-NoProfile" :: "-ExecutionPolicy" :: "Bypass" :: "-File" :: executable :: arguments)

/-- Embedding of the Windows `spawn_command_with_shell_support`
(lines 176-197). -/
def spawn_command_with_shell_support_windows (osSpawn : Spawn) (is_file : String → Bool)
    (command_path : String) (arguments : List String) : SpawnResult :=
  match resolve_windows_command_kind command_path with
  | some kind => execute_windows_command osSpawn kind command_path arguments
  | none =>
    match osSpawn command_path arguments with
    | .ok status => .ok status
    | .error error =>
      match resolve_windows_command_fallback is_file command_path error with
      | some kf => execute_windows_command osSpawn kf.1 kf.2 arguments
      | none => .error error

/-- `spawn_command_with_shell_support` per platform: the non-Windows
version (lines 199-205) is a plain direct spawn. -/
def spawn_command_with_shell_support (platform : Platform) (osSpawn : Spawn) (fs : FS) :
    Spawn :=
  match platform with
  | .windows => spawn_command_with_shell_support_windows osSpawn fs.isFile
  | _ => osSpawn

/-! ## Path/command locator (`find_in_path`, lines 646-667) -/

/-- Split a character list on a separator character. -/
def splitOnSep (sep : Char) : List Char → List (List Char)
  | [] => [[]]
  | c :: rest =>
    let r := splitOnSep sep rest
    if c = sep then [] :: r
    else
      match r with
      | [] => [[c]]
      | h :: t => (c :: h) :: t

/-- Model of `std::env::split_paths`: split on the platform's path-list
separator (`;` on Windows, `:` elsewhere; Windows double-quote grouping
is not modelled, no claim exercises it). -/
def splitPaths (isWindows : Bool) (v : String) : List String :=
  (splitOnSep (if isWindows then ';' else ':') v.data).map String.mk

/-- The extension probe order of line 657. -/
def windowsPathExts : List String := ["exe", "cmd", "bat"]

/-- The directory loop of `find_in_path` (lines 649-665). -/
def find_in_path_loop (isWindows : Bool) (is_file : String → Bool) (has_extension : Bool)
    (command : String) : List String → Option String
  | [] => none
  | dir :: rest =>
    let candidate := pathJoin dir command
    if is_file candidate then some candidate
    else
      let viaExt : Option String :=
        if isWindows && !has_extension then
          windowsPathExts.findSome? (fun ext =>
            let with_ext := pathJoin dir (command ++ "." ++ ext)
            if is_file with_ext then some with_ext else none)
        else none
      match viaExt with
      | some found => some found
      | none => find_in_path_loop isWindows is_file has_extension command rest

/-- Embedding of `find_in_path` (lines 646-667). -/
def find_in_path (isWindows : Bool) (is_file : String → Bool) (env : Env)
    (command : String) : Option String :=
  match env "PATH" with
  | none => none
  | some path_var =>
    find_in_path_loop isWindows is_file (pathExtension command).isSome command
      (splitPaths isWindows path_var)

/-- The candidates `find_in_path` probes in one directory, in probe
order. -/
def dirCandidates (isWindows : Bool) (has_extension : Bool) (command dir : String) :
    List String :=
  pathJoin dir command ::
    (if isWindows && !has_extension then
      windowsPathExts.map (fun ext => pathJoin dir (command ++ "." ++ ext))
    else [])

/-! ## Toolbox and fixed-root locators (lines 529-601) -/

/-- Boolean code-point-wise lexicographic order on character lists; this
is the order of Rust's byte-wise `Ord` on strings (byte-wise UTF-8
comparison agrees with code-point-wise comparison). -/
def charListLe : List Char → List Char → Bool
  | [], _ => true
  | _ :: _, [] => false
  | a :: as, b :: bs => if a < b then true else if b < a then false else charListLe as bs

/-- Rust `Ord` on strings. -/
def strLe (a b : String) : Bool := charListLe a.data b.data

/-- Rust `Ord` on `Option<&OsStr>`: `None` sorts before `Some`. -/
def optStrLe : Option String → Option String → Bool
  | none, _ => true
  | some _, none => false
  | some a, some b => strLe a b

/-- The comparator of line 553: compare entries by `file_name()`. -/
def fileNameLe (l r : String) : Bool := optStrLe (fileName l) (fileName r)

/-- The sort of line 553 (`builds.sort_by(...)`, a stable ascending
sort).  It is modelled by insertion sort: a stable sort's output is
uniquely determined by the comparator, so any stable sort is an
extensionally faithful model of Rust's. -/
def sortByFileName (builds : List String) : List String :=
  List.insertionSort (fun l r => fileNameLe l r = true) builds

/-- The channel directory `LOCALAPPDATA/JetBrains/Toolbox/apps/<product>/ch-0`
probed on lines 532-537. -/
def toolboxBase (localAppData product_code : String) : String :=
  pathJoin
    (pathJoin (pathJoin (pathJoin (pathJoin localAppData "JetBrains") "Toolbox") "apps")
      product_code)
    "ch-0"

/-- The directory entries that qualify as candidate builds on
lines 542-552: subdirectories containing `bin/<exe_name>` as a file. -/
def toolboxQualifying (fs : FS) (base exe_name : String) (entries : List String) :
    List String :=
  entries.filter (fun n =>
    fs.isDir (pathJoin base n) &&
      fs.isFile (pathJoin (pathJoin (pathJoin base n) "bin") exe_name))

/-- Embedding of `find_jetbrains_toolbox_exe` (lines 529-561). -/
def find_jetbrains_toolbox_exe (fs : FS) (env : Env) (product_code exe_name : String) :
    Option String :=
  match env "LOCALAPPDATA" with
  | none => none
  | some localAppData =>
    let base := toolboxBase localAppData product_code
    if !fs.isDir base then none
    else
      let builds :=
        match fs.readDir base with
        | none => []
        | some entries =>
          (entries.map (pathJoin base)).filter (fun p =>
            fs.isDir p && fs.isFile (pathJoin (pathJoin p "bin") exe_name))
      match (sortByFileName builds).getLast? with
      | none => none
      | some latest =>
        let exe_path := pathJoin (pathJoin latest "bin") exe_name
        if fs.isFile exe_path then some exe_path else none

/-- Embedding of `find_jetbrains_in_root` (lines 585-601). -/
def find_jetbrains_in_root (fs : FS) (root exe_name : String) : Option String :=
  if !fs.isDir root then none
  else
    match fs.readDir root with
    | none => none
    | some entries =>
      entries.findSome? (fun entry =>
        let path := pathJoin root entry
        if fs.isDir path then
          let candidate := pathJoin (pathJoin path "bin") exe_name
          if fs.isFile candidate then some candidate else none
        else none)

/-- Embedding of `find_jetbrains_install_exe` (lines 563-583). -/
def find_jetbrains_install_exe (fs : FS) (env : Env) (exe_name : String) : Option String :=
  let roots :=
    (match env "ProgramFiles" with
      | some p => [pathJoin p "JetBrains"]
      | none => []) ++
    (match env "ProgramFiles(x86)" with
      | some p => [pathJoin p "JetBrains"]
      | none => []) ++
    (match env "LOCALAPPDATA" with
      | some p => [pathJoin p "JetBrains", pathJoin (pathJoin p "Programs") "JetBrains"]
      | none => [])
  roots.findSome? (fun root => find_jetbrains_in_root fs root exe_name)

/-- Embedding of `find_windows_path` (lines 513-527). -/
def find_windows_path (fs : FS) (env : Env) (env_keys suffixes : List String) :
    Option String :=
  env_keys.findSome? (fun key =>
    match env key with
    | none => none
    | some root =>
      suffixes.findSome? (fun suffix =>
        let candidate := pathJoin root suffix
        if fs.isFile candidate then some candidate else none))

/-- Embedding of `find_windows_vscode` (lines 489-499). -/
def find_windows_vscode (fs : FS) (env : Env) : Option String :=
  (find_windows_path fs env ["ProgramFiles", "ProgramFiles(x86)", "LOCALAPPDATA"]
      ["Microsoft VS Code\\Code.exe", "Programs\\Microsoft VS Code\\Code.exe"]).or
    (find_in_path true fs.isFile env "code")

/-- Embedding of `find_windows_vscode_insiders` (lines 501-511). -/
def find_windows_vscode_insiders (fs : FS) (env : Env) : Option String :=
  (find_windows_path fs env ["ProgramFiles", "ProgramFiles(x86)", "LOCALAPPDATA"]
      ["Microsoft VS Code Insiders\\Code - Insiders.exe",
        "Programs\\Microsoft VS Code Insiders\\Code - Insiders.exe"]).or
    (find_in_path true fs.isFile env "code-insiders")

/-! ## Preset discovery (lines 124-137, 333-462, 603-644) -/

/-- Modelled from the spec: the preset record (`ToolInvocation` in the
spec's data model, section 3) is declared in `crate::models`, which is
not among the provided sources; its fields — stable id, display name,
command path, argument template — are exactly the ones `system.rs`
constructs. -/
structure DevToolPreset where
  id : String
  name : String
  command_path : String
  arguments : List String
deriving DecidableEq

/-- Embedding of `build_windows_preset` (lines 479-487). -/
def build_windows_preset (id name command_path : String) : DevToolPreset :=
  { id := id, name := name, command_path := command_path, arguments := ["\x7bpath\x7d"] }

/-- Embedding of `add_jetbrains_windows_preset` (lines 464-477). -/
def add_jetbrains_windows_preset (fs : FS) (env : Env) (presets : List DevToolPreset)
    (id name toolbox_code exe_name : String) : List DevToolPreset :=
  match (find_jetbrains_toolbox_exe fs env toolbox_code exe_name).or
      (find_jetbrains_install_exe fs env exe_name) with
  | some path => presets ++ [build_windows_preset id name path]
  | none => presets

/-- Embedding of `list_dev_tool_presets_windows` (lines 397-462). -/
def list_dev_tool_presets_windows (fs : FS) (env : Env) : List DevToolPreset :=
  let presets : List DevToolPreset := []
  let presets :=
    match find_windows_vscode fs env with
    | some path => presets ++ [build_windows_preset "vscode" "Visual Studio Code" path]
    | none => presets
  let presets :=
    match find_windows_vscode_insiders fs env with
    | some path =>
      presets ++ [build_windows_preset "vscode-insiders" "Visual Studio Code - Insiders" path]
    | none => presets
  let presets :=
    match (find_jetbrains_toolbox_exe fs env "IDEA-U" "idea64.exe").or
        ((find_jetbrains_toolbox_exe fs env "IDEA-C" "idea64.exe").or
          (find_jetbrains_install_exe fs env "idea64.exe")) with
    | some path =>
      let name :=
        if rustContains (toAsciiLower path) "idea-c" then "IntelliJ IDEA Community"
        else "IntelliJ IDEA"
      presets ++ [build_windows_preset "intellij-idea" name path]
    | none => presets
  let presets :=
    match (find_jetbrains_toolbox_exe fs env "PyCharm-P" "pycharm64.exe").or
        ((find_jetbrains_toolbox_exe fs env "PyCharm-C" "pycharm64.exe").or
          (find_jetbrains_install_exe fs env "pycharm64.exe")) with
    | some path =>
      let name :=
        if rustContains (toAsciiLower path) "pycharm-c" then "PyCharm Community"
        else "PyCharm"
      presets ++ [build_windows_preset "pycharm" name path]
    | none => presets
  let presets := add_jetbrains_windows_preset fs env presets "webstorm" "WebStorm" "WebStorm" "webstorm64.exe"
  let presets := add_jetbrains_windows_preset fs env presets "goland" "GoLand" "GoLand" "goland64.exe"
  let presets := add_jetbrains_windows_preset fs env presets "rider" "Rider" "Rider" "rider64.exe"
  let presets := add_jetbrains_windows_preset fs env presets "clion" "CLion" "CLion" "clion64.exe"
  let presets := add_jetbrains_windows_preset fs env presets "phpstorm" "PhpStorm" "PhpStorm" "phpstorm64.exe"
  let presets := add_jetbrains_windows_preset fs env presets "datagrip" "DataGrip" "DataGrip" "datagrip64.exe"
  presets

/-- Embedding of `push_macos_app` (lines 377-395): returns the extended
preset list and whether the bundle existed. -/
def push_macos_app (fs : FS) (presets : List DevToolPreset) (id display_name app_name : String) :
    List DevToolPreset × Bool :=
  let bundle_path := pathJoin "/Applications" (app_name ++ ".app")
  if !fs.pathExists bundle_path then (presets, false)
  else
    (presets ++
      [{ id := id, name := display_name, command_path := "/usr/bin/open",
         arguments := ["-a", app_name, "\x7bpath\x7d"] }],
      true)

/-- Embedding of `list_dev_tool_presets_macos` (lines 333-375). -/
def list_dev_tool_presets_macos (fs : FS) : List DevToolPreset :=
  let st := push_macos_app fs [] "vscode" "Visual Studio Code" "Visual Studio Code"
  let st := push_macos_app fs st.1 "vscode-insiders" "Visual Studio Code - Insiders"
    "Visual Studio Code - Insiders"
  let idea := push_macos_app fs st.1 "intellij-idea" "IntelliJ IDEA" "IntelliJ IDEA"
  let st := if idea.2 then idea
    else push_macos_app fs idea.1 "intellij-idea" "IntelliJ IDEA Community" "IntelliJ IDEA CE"
  let pycharm := push_macos_app fs st.1 "pycharm" "PyCharm" "PyCharm"
  let st := if pycharm.2 then pycharm
    else push_macos_app fs pycharm.1 "pycharm" "PyCharm Community" "PyCharm CE"
  let st := push_macos_app fs st.1 "webstorm" "WebStorm" "WebStorm"
  let st := push_macos_app fs st.1 "goland" "GoLand" "GoLand"
  let st := push_macos_app fs st.1 "rider" "Rider" "Rider"
  let st := push_macos_app fs st.1 "clion" "CLion" "CLion"
  let st := push_macos_app fs st.1 "phpstorm" "PhpStorm" "PhpStorm"
  let st := push_macos_app fs st.1 "datagrip" "DataGrip" "DataGrip"
  st.1

/-- Embedding of `build_linux_preset` (lines 636-644). -/
def build_linux_preset (id name command_path : String) : DevToolPreset :=
  { id := id, name := name, command_path := command_path, arguments := ["\x7bpath\x7d"] }

/-- Embedding of `add_linux_preset` (lines 629-634). -/
def add_linux_preset (is_file : String → Bool) (env : Env) (presets : List DevToolPreset)
    (id name command : String) : List DevToolPreset :=
  match find_in_path false is_file env command with
  | some command_path => presets ++ [build_linux_preset id name command_path]
  | none => presets

/-- Embedding of `list_dev_tool_presets_linux` (lines 603-627). -/
def list_dev_tool_presets_linux (is_file : String → Bool) (env : Env) : List DevToolPreset :=
  let presets : List DevToolPreset := []
  let presets :=
    match find_in_path false is_file env "code" with
    | some command => presets ++ [build_linux_preset "vscode" "Visual Studio Code" command]
    | none => presets
  let presets :=
    match find_in_path false is_file env "code-insiders" with
    | some command =>
      presets ++ [build_linux_preset "vscode-insiders" "Visual Studio Code - Insiders" command]
    | none => presets
  let presets := add_linux_preset is_file env presets "intellij-idea" "IntelliJ IDEA" "idea"
  let presets := add_linux_preset is_file env presets "webstorm" "WebStorm" "webstorm"
  let presets := add_linux_preset is_file env presets "pycharm" "PyCharm" "pycharm"
  let presets := add_linux_preset is_file env presets "goland" "GoLand" "goland"
  let presets := add_linux_preset is_file env presets "rider" "Rider" "rider"
  let presets := add_linux_preset is_file env presets "clion" "CLion" "clion"
  let presets := add_linux_preset is_file env presets "phpstorm" "PhpStorm" "phpstorm"
  let presets := add_linux_preset is_file env presets "datagrip" "DataGrip" "datagrip"
  presets

/-- Embedding of `list_dev_tool_presets` (lines 124-137): compile-time
platform dispatch. -/
def list_dev_tool_presets (platform : Platform) (fs : FS) (env : Env) : List DevToolPreset :=
  match platform with
  | .macos => list_dev_tool_presets_macos fs
  | .windows => list_dev_tool_presets_windows fs env
  | .linux => list_dev_tool_presets_linux fs.isFile env

/-- The fixed Linux catalog, in declaration order: id, display name,
command name. -/
def linuxCatalog : List (String × String × String) :=
  [("vscode", "Visual Studio Code", "code"),
   ("vscode-insiders", "Visual Studio Code - Insiders", "code-insiders"),
   ("intellij-idea", "IntelliJ IDEA", "idea"),
   ("webstorm", "WebStorm", "webstorm"),
   ("pycharm", "PyCharm", "pycharm"),
   ("goland", "GoLand", "goland"),
   ("rider", "Rider", "rider"),
   ("clion", "CLion", "clion"),
   ("phpstorm", "PhpStorm", "phpstorm"),
   ("datagrip", "DataGrip", "datagrip")]

/-! ## Action facade (lines 34-121, 669-715) -/

/-- `EditorOpenParams` (lines 18-25). -/
structure EditorOpenParams where
  path : String
  app_name : Option String
  bundle_id : Option String
  command_path : Option String
  arguments : Option (List String)

/-- `TerminalOpenParams` (lines 27-32). -/
structure TerminalOpenParams where
  path : String
  command_path : Option String
  arguments : Option (List String)

/-- The `Set-Location` command string built on lines 704-705 (the target
directory with every double quote doubled, spliced into the template). -/
def powershellLocationCommand (path : String) : String :=
  "Set-Location -LiteralPath \"" ++ rustReplace path "\"" "\"\"" ++ "\""

/-- Embedding of `open_windows_terminal` (lines 695-715). -/
def open_windows_terminal (osSpawn : Spawn) (path : String) : Except String Unit :=
  let fallback : Except String Unit :=
    match osSpawn "powershell.exe" ["-NoExit", "-Command", powershellLocationCommand path] with
    | .error err => .error ("无法打开终端: " ++ err.text)
    | .ok status => if status.success then .ok () else .error "终端打开失败"
  match osSpawn "wt.exe" ["-d", path] with
  | .ok status => if status.success then .ok () else fallback
  | .error _ => fallback

/-- The AppleScript source built on lines 67-71 (every double quote of
the target escaped with a backslash, spliced into the template). -/
def appleTerminalScript (path : String) : String :=
  "tell application \"Terminal\"\n    do script \"cd \\\"" ++
    rustReplace path "\"" "\\\"" ++ "\\\"\"\n    activate\nend tell"

/-- Embedding of `open_with_default` (lines 319-331, 669-693). -/
def open_with_default (platform : Platform) (osSpawn : Spawn) (path : String) :
    Except String Unit :=
  let program :=
    match platform with
    | .macos => "/usr/bin/open"
    | .windows => "explorer"
    | .linux => "xdg-open"
  match osSpawn program [path] with
  | .error err => .error ("无法打开路径: " ++ err.text)
  | .ok status => if status.success then .ok () else .error "打开路径失败"

/-- Embedding of `open_in_terminal` (lines 50-84). -/
def open_in_terminal (platform : Platform) (osSpawn : Spawn) (fs : FS)
    (params : TerminalOpenParams) : Except String Unit :=
  match params.command_path with
  | some command_path =>
    run_command_with_shell_support (spawn_command_with_shell_support platform osSpawn fs)
      command_path (build_command_arguments params.arguments params.path)
      "无法打开终端:" "终端打开失败"
  | none =>
    match platform with
    | .windows => open_windows_terminal osSpawn params.path
    | .macos =>
      match osSpawn "/usr/bin/osascript" ["-e", appleTerminalScript params.path] with
      | .error err => .error ("无法打开终端: " ++ err.text)
      | .ok status => if status.success then .ok () else .error "终端打开失败"
    | .linux => open_with_default .linux osSpawn params.path

/-- The command-override tail of `open_in_editor` (lines 110-120): run
the override, or report the fixed failure when there is none. -/
def editor_command_stage (platform : Platform) (osSpawn : Spawn) (fs : FS)
    (params : EditorOpenParams) : Except String Unit :=
  match params.command_path with
  | some command_path =>
    run_command_with_shell_support (spawn_command_with_shell_support platform osSpawn fs)
      command_path (build_command_arguments params.arguments params.path)
      "打开编辑器失败:" "打开编辑器失败"
  | none => .error "未能打开编辑器"

/-- The bundle-identifier attempt of `open_in_editor` (lines 99-107). -/
def editor_bundle_stage (platform : Platform) (osSpawn : Spawn) (fs : FS)
    (params : EditorOpenParams) : Except String Unit :=
  match params.bundle_id with
  | some bundle_id =>
    match osSpawn "/usr/bin/open" ["-b", bundle_id, params.path] with
    | .error err => .error ("打开编辑器失败: " ++ err.text)
    | .ok status =>
      if status.success then .ok ()
      else editor_command_stage platform osSpawn fs params
  | none => editor_command_stage platform osSpawn fs params

/-- Embedding of `open_in_editor` (lines 86-121). -/
def open_in_editor (platform : Platform) (osSpawn : Spawn) (fs : FS)
    (params : EditorOpenParams) : Except String Unit :=
  if platform = Platform.macos then
    match params.app_name with
    | some app_name =>
      match osSpawn "/usr/bin/open" ["-a", app_name, params.path] with
      | .error err => .error ("打开编辑器失败: " ++ err.text)
      | .ok status =>
        if status.success then .ok ()
        else editor_bundle_stage platform osSpawn fs params
    | none => editor_bundle_stage platform osSpawn fs params
  else editor_command_stage platform osSpawn fs params

/-! ## Helper lemmas about the string primitives -/

theorem containsSub_append_self (l t : List Char) : containsSub l (l ++ t) = true := by
  cases l with
  | nil =>
    cases t with
    | nil => rfl
    | cons c r => simp [containsSub]
  | cons c r =>
    have hpre : (c :: r).isPrefixOf ((c :: r) ++ t) = true := by
      rw [ List.isPrefixOf_iff_prefix]
      exact List.prefix_append _ _
    simp [containsSub, hpre]

theorem containsSub_self (l : List Char) : containsSub l l = true := by
  have h := containsSub_append_self l []
  simpa using h

theorem containsSub_cons_of (pat : List Char) (c : Char) (rest : List Char)
    (h : containsSub pat rest = true) : containsSub pat (c :: rest) = true := by
  simp [containsSub, h]

/-- If the pattern does not occur in `s`, `replaceFuel` is the identity. -/
theorem replaceFuel_of_not_contains (p0 : Char) (ptl rep : List Char) :
    ∀ (fuel : Nat) (s : List Char), containsSub (p0 :: ptl) s = false →
      replaceFuel p0 ptl rep fuel s = s := by
  intro fuel
  induction fuel with
  | zero =>
    intro s _
    cases s with
    | nil => simp [replaceFuel]
    | cons c rest => simp [replaceFuel]
  | succ fuel ih =>
    intro s h
    cases s with
    | nil => simp [replaceFuel]
    | cons c rest =>
      simp [containsSub] at h
      rw [replaceFuel]
      simp [h.1, ih rest h.2]

/-- If the pattern occurs in `s` and the fuel suffices, the replacement
text occurs in the result of `replaceFuel`. -/
theorem containsSub_replaceFuel (p0 : Char) (ptl rep : List Char) :
    ∀ (fuel : Nat) (s : List Char), s.length ≤ fuel →
      containsSub (p0 :: ptl) s = true →
      containsSub rep (replaceFuel p0 ptl rep fuel s) = true := by
  intro fuel
  induction fuel with
  | zero =>
    intro s hs h
    have : s = [] := List.eq_nil_of_length_eq_zero (Nat.le_zero.mp hs)
    subst this
    simp [containsSub] at h
  | succ n ih =>
    intro s hs h
    cases s with
    | nil => simp [containsSub] at h
    | cons c rest =>
      rw [replaceFuel]
      cases hpre : (p0 :: ptl).isPrefixOf (c :: rest) with
      | true =>
        simp [hpre]
        exact containsSub_append_self rep _
      | false =>
        simp [hpre]
        simp [containsSub, hpre] at h
        have hrest : rest.length ≤ n := by
          have := Nat.le_of_succ_le_succ hs
          simpa using this
        exact containsSub_cons_of _ _ _ (ih rest hrest h)

theorem rustContains_self_right (path : String) : rustContains path path = true := by
  simpa [rustContains] using containsSub_self path.data

theorem rustReplace_of_not_contains (a pat path : String)
    (h : rustContains a pat = false) : rustReplace a pat path = a := by
  unfold rustReplace
  unfold rustContains at h
  cases hp : pat.data with
  | nil => rfl
  | cons p0 ptl =>
    rw [hp] at h
    show String.mk (replaceFuel p0 ptl path.data a.data.length a.data) = a
    rw [replaceFuel_of_not_contains p0 ptl path.data a.data.length a.data h]

theorem placeholderToken_data :
    placeholderToken.data = ['\x7b', 'p', 'a', 't', 'h', '\x7d'] := by decide

theorem rustContains_rustReplace_placeholder (a path : String)
    (h : rustContains a placeholderToken = true) :
    rustContains (rustReplace a placeholderToken path) path = true := by
  unfold rustContains at h ⊢
  unfold rustReplace
  rw [placeholderToken_data] at h ⊢
  show containsSub path.data
    (replaceFuel '\x7b' ['p', 'a', 't', 'h', '\x7d'] path.data a.data.length a.data) = true
  exact containsSub_replaceFuel _ _ path.data a.data.length a.data le_rfl h

/-- Characterization of the builder loop: it appends the substituted
entries in order and ORs the per-entry substitution flags. -/
theorem build_loop_spec (path : String) :
    ∀ (l acc : List String) (ins : Bool),
      build_loop path l acc ins =
        (acc ++ l.map (substEntry path), ins || l.any (fun a => rustContains a placeholderToken)) := by
  intro l
  induction l with
  | nil => intro acc ins; simp [build_loop]
  | cons a rest ih =>
    intro acc ins
    by_cases h : rustContains a placeholderToken = true
    · simp [build_loop, h, ih, substEntry]
    · have h' : rustContains a placeholderToken = false := by simpa using h
      simp [build_loop, h', ih, substEntry]

theorem substEntry_eq_replace (path a : String) :
    substEntry path a = rustReplace a placeholderToken path := by
  unfold substEntry
  by_cases h : rustContains a placeholderToken = true
  · simp [h]
  · have h' : rustContains a placeholderToken = false := by simpa using h
    simp [h', rustReplace_of_not_contains a placeholderToken path h']


/-! ## Argument-builder theorems -/

/-- The builder on a present template: substitute in every entry; append
the path exactly when no entry contained the placeholder. -/
theorem build_command_arguments_eq (path : String) (tmpl : List String) :
    build_command_arguments (some tmpl) path =
      (if tmpl.any (fun a => rustContains a placeholderToken) then
        tmpl.map (substEntry path)
      else tmpl.map (substEntry path) ++ [path]) := by
  have h0 : build_command_arguments (some tmpl) path =
      (if !(build_loop path tmpl [] false).2 then (build_loop path tmpl [] false).1 ++ [path]
      else (build_loop path tmpl [] false).1) := rfl
  rw [h0, build_loop_spec]
  by_cases h : tmpl.any (fun a => rustContains a placeholderToken) = true
  · simp [h]
  · have h' : tmpl.any (fun a => rustContains a placeholderToken) = false := by simpa using h
    simp [h']

/-- Entries without the placeholder pass through the builder unchanged. -/
theorem map_substEntry_of_not_any (path : String) (tmpl : List String)
    (h : tmpl.any (fun a => rustContains a placeholderToken) = false) :
    tmpl.map (substEntry path) = tmpl := by
  have hall : ∀ a ∈ tmpl, substEntry path a = a := by
    intro a ha
    have hfalse : rustContains a placeholderToken = false := by
      have := List.any_eq_false.mp h a ha
      simpa using this
    simp [substEntry, hfalse]
  calc tmpl.map (substEntry path) = tmpl.map id := List.map_congr_left hall
    _ = tmpl := List.map_id tmpl

/-- Claim C1: for every target path and optional template, the builder
returns the template with every occurrence of the placeholder token
substituted in each entry (order and multiplicity preserved) when some
entry contained the token; otherwise (including an absent template) the
template with the target path appended as one additional final entry, so
an absent template yields exactly `[path]`. -/
theorem claim_C1 (path : String) (tmpl : List String) :
    build_command_arguments none path = [path]
    ∧ (tmpl.any (fun a => rustContains a placeholderToken) = true →
        build_command_arguments (some tmpl) path =
          tmpl.map (fun a => rustReplace a placeholderToken path))
    ∧ (tmpl.any (fun a => rustContains a placeholderToken) = false →
        build_command_arguments (some tmpl) path = tmpl ++ [path]) := by
  refine ⟨rfl, ?_, ?_⟩
  · intro h
    rw [build_command_arguments_eq, if_pos h]
    exact List.map_congr_left (fun a _ => substEntry_eq_replace path a)
  · intro h
    rw [build_command_arguments_eq, if_neg (by simp [h]), map_substEntry_of_not_any path tmpl h]

/-- Witness for C1 at concrete inputs: a template with the placeholder,
a template without it, and the absent template. -/
theorem claim_C1_witness :
    build_command_arguments none "/tmp/f" = ["/tmp/f"]
    ∧ (["--wait", "\x7bpath\x7d"].any (fun a => rustContains a placeholderToken) = true
        ∧ build_command_arguments (some ["--wait", "\x7bpath\x7d"]) "/tmp/f" =
            ["--wait", "\x7bpath\x7d"].map (fun a => rustReplace a placeholderToken "/tmp/f"))
    ∧ (["-n"].any (fun a => rustContains a placeholderToken) = false
        ∧ build_command_arguments (some ["-n"]) "/tmp/f" = ["-n"] ++ ["/tmp/f"]) := by
  refine ⟨(claim_C1 "/tmp/f" []).1, ⟨by decide, ?_⟩, ⟨by decide, ?_⟩⟩
  · exact (claim_C1 "/tmp/f" ["--wait", "\x7bpath\x7d"]).2.1 (by decide)
  · exact (claim_C1 "/tmp/f" ["-n"]).2.2 (by decide)

/-- Counterexample to claim C2 as stated: with the template
`["{path} {path}"]` a single invocation of the builder substitutes the
placeholder twice (both occurrences are replaced), so substitution does
not happen "at most once per invocation". -/
theorem claim_C2_counterexample :
    ¬ substitutionCount (some ["\x7bpath\x7d \x7bpath\x7d"]) ≤ 1
    ∧ build_command_arguments (some ["\x7bpath\x7d \x7bpath\x7d"]) "p" = ["p p"] := by
  exact ⟨by decide, by decide⟩

/-- Claim C2 (amended): for every invocation of the builder,
substitution replaces every placeholder occurrence in every template
entry containing one (the result of a present template is exactly the
template mapped through the replace-all substitution), the fallback
append of the target path as one additional final entry happens exactly
when no entry contained the placeholder (an absent template behaving as
the empty one), and the target path string is never silently dropped —
it always occurs in the resulting argument vector (substituted into an
entry or appended as the final entry). -/
theorem claim_C2 (arguments : Option (List String)) (path : String) (tmpl : List String) :
    build_command_arguments none path = [] ++ [path]
    ∧ build_command_arguments (some tmpl) path =
        tmpl.map (fun a => rustReplace a placeholderToken path) ++
          (if tmpl.any (fun a => rustContains a placeholderToken) then [] else [path])
    ∧ (build_command_arguments arguments path).any (fun a => rustContains a path) = true := by
  refine ⟨rfl, ?_, ?_⟩
  · rw [build_command_arguments_eq]
    by_cases h : tmpl.any (fun a => rustContains a placeholderToken) = true
    · rw [if_pos h, if_pos h, List.append_nil]
      exact List.map_congr_left (fun a _ => substEntry_eq_replace path a)
    · have h' : tmpl.any (fun a => rustContains a placeholderToken) = false := by simpa using h
      rw [if_neg (by simp [h']), if_neg (by simp [h'])]
      have hmap : tmpl.map (fun a => rustReplace a placeholderToken path) =
          tmpl.map (substEntry path) :=
        List.map_congr_left (fun a _ => (substEntry_eq_replace path a).symm)
      rw [hmap]
  · cases arguments with
    | none =>
      simp [build_command_arguments]
      exact rustContains_self_right path
    | some t =>
      rw [build_command_arguments_eq]
      by_cases h : t.any (fun a => rustContains a placeholderToken) = true
      · obtain ⟨a, ha, hc⟩ := List.any_eq_true.mp h
        rw [if_pos h]
        apply List.any_eq_true.mpr
        refine ⟨substEntry path a, List.mem_map_of_mem _ ha, ?_⟩
        rw [substEntry_eq_replace]
        exact rustContains_rustReplace_placeholder a path hc
      · rw [if_neg h]
        apply List.any_eq_true.mpr
        exact ⟨path, by simp, rustContains_self_right path⟩


/-! ## Launcher theorems -/

/-- Claim C3: the launcher wrapper returns `Ok(())` iff the spawned
process exits with status 0; a spawn-level OS error yields the prefixed
"could not start"-style message, and a clean non-zero exit yields the
fixed failure message.  (The embedding is a total function, so no input
raises an in-process exception.) -/
theorem claim_C3 (spawner : Spawn) (command_path : String) (arguments : List String)
    ( spawn_error_prefix failure_message : String) :
    (run_command_with_shell_support spawner command_path arguments spawn_error_prefix
        failure_message = .ok ()
      ↔ ∃ status, spawner command_path arguments = .ok status ∧ status.code = 0)
    ∧ (∀ err, spawner command_path arguments = .error err →
        run_command_with_shell_support spawner command_path arguments spawn_error_prefix
          failure_message = .error ( spawn_error_prefix ++ " " ++ err.text))
    ∧ (∀ status, spawner command_path arguments = .ok status → status.code ≠ 0 →
        run_command_with_shell_support spawner command_path arguments spawn_error_prefix
          failure_message = .error failure_message) := by
  refine ⟨⟨?_, ?_⟩, ?_, ?_⟩
  · intro hok
    cases hs : spawner command_path arguments with
    | error err => simp [run_command_with_shell_support, hs] at hok
    | ok status =>
      refine ⟨status, rfl, ?_⟩
      by_cases h : status.success = true
      · simpa [ExitStatus.success] using h
      · have h' : status.success = false := by simpa using h
        simp [run_command_with_shell_support, hs, h'] at hok
  · rintro ⟨status, hs, hc⟩
    have h : status.success = true := by simp [ExitStatus.success, hc]
    simp [run_command_with_shell_support, hs, h]
  · intro err herr
    simp [run_command_with_shell_support, herr]
  · intro status hs hc
    have h : status.success = false := by
      simp [ExitStatus.success]
      exact hc
    simp [run_command_with_shell_support, hs, h]

/-- Witness for C3: a spawner that exits 0 for program `a`, exits 3 for
`b`, and fails to start for `c`. -/
theorem claim_C3_witness :
    ((fun program _ =>
        if program = "a" then .ok ⟨0⟩ else if program = "b" then .ok ⟨3⟩
        else .error ⟨"boom", some 2⟩ : Spawn) "a" [] = .ok ⟨0⟩ ∧ (0 : Int) = 0)
    ∧ run_command_with_shell_support
        (fun program _ =>
          if program = "a" then .ok ⟨0⟩ else if program = "b" then .ok ⟨3⟩
          else .error ⟨"boom", some 2⟩)
        "a" [] "P:" "F" = .ok ()
    ∧ run_command_with_shell_support
        (fun program _ =>
          if program = "a" then .ok ⟨0⟩ else if program = "b" then .ok ⟨3⟩
          else .error ⟨"boom", some 2⟩)
        "b" [] "P:" "F" = .error "F"
    ∧ run_command_with_shell_support
        (fun program _ =>
          if program = "a" then .ok ⟨0⟩ else if program = "b" then .ok ⟨3⟩
          else .error ⟨"boom", some 2⟩)
        "c" [] "P:" "F" = .error ("P:" ++ " " ++ "boom") := by
  refine ⟨⟨rfl, rfl⟩, ?_, ?_, ?_⟩
  · exact (claim_C3 _ "a" [] "P:" "F").1.mpr ⟨⟨0⟩, rfl, rfl⟩
  · exact (claim_C3 _ "b" [] "P:" "F").2.2 ⟨3⟩ rfl (by decide)
  · exact (claim_C3 _ "c" [] "P:" "F").2.1 ⟨"boom", some 2⟩ rfl

/-- Claim C4: on Windows, for an extension-less path whose direct spawn
fails with an OS error code in {2, 3, 193, 216}, the launcher probes
siblings by swapping in the extensions cmd, bat, ps1, exe, com in that
fixed order and spawns the first existing sibling under its re-classified
kind (`cmd.exe /C` for cmd/bat, `powershell.exe -NoProfile
-ExecutionPolicy Bypass -File` for ps1, direct otherwise); with an
extension present, or an error code outside the set, no fallback is
attempted and the original error is returned. -/
theorem claim_C4 (osSpawn : Spawn) (is_file : String → Bool) (command_path : String)
    (arguments : List String) (error : IOError)
    (herr : osSpawn command_path arguments = .error error) :
    (pathExtension command_path = none → should_try_windows_fallback error = true →
      spawn_command_with_shell_support_windows osSpawn is_file command_path arguments =
        (match windowsFallbackTable.findSome? (fun entry =>
            if is_file (pathWithExtension command_path entry.1) then
              some (entry.2, pathWithExtension command_path entry.1)
            else none) with
        | some kf => execute_windows_command osSpawn kf.1 kf.2 arguments
        | none => .error error))
    ∧ (pathExtension command_path = none → should_try_windows_fallback error = false →
        spawn_command_with_shell_support_windows osSpawn is_file command_path arguments =
          .error error)
    ∧ (∀ ext, pathExtension command_path = some ext →
        resolve_windows_command_kind command_path = none →
        spawn_command_with_shell_support_windows osSpawn is_file command_path arguments =
          .error error)
    ∧ (∀ kind, resolve_windows_command_kind command_path = some kind →
        spawn_command_with_shell_support_windows osSpawn is_file command_path arguments =
          execute_windows_command osSpawn kind command_path arguments)
    ∧ (should_try_windows_fallback error = true ↔
        error.rawOsError ∈ [some 2, some 3, some 193, some 216])
    ∧ windowsFallbackTable =
        [("cmd", .cmd), ("bat", .cmd), ("ps1", .powerShell), ("exe", .direct), ("com", .direct)]
    ∧ (∀ exe args, execute_windows_command osSpawn .cmd exe args =
        osSpawn "cmd.exe" ("/C" :: exe :: args))
    ∧ (∀ exe args, execute_windows_command osSpawn .powerShell exe args =
        osSpawn "powershell.exe"
          ("-NoProfile" :: "-ExecutionPolicy" :: "Bypass" :: "-File" :: exe :: args))
    ∧ (∀ exe args, execute_windows_command osSpawn .direct exe args = osSpawn exe args) := by
  have hkind_none : pathExtension command_path = none →
      resolve_windows_command_kind command_path = none := by
    intro h
    simp [resolve_windows_command_kind, h]
  refine ⟨?_, ?_, ?_, ?_, ?_, rfl, fun exe args => rfl, fun exe args => rfl, fun exe args => rfl⟩
  · intro hext htry
    simp [spawn_command_with_shell_support_windows, hkind_none hext, herr,
      resolve_windows_command_fallback, hext, htry]
  · intro hext htry
    simp [spawn_command_with_shell_support_windows, hkind_none hext, herr,
      resolve_windows_command_fallback, hext, htry]
  · intro ext hext hkind
    simp [spawn_command_with_shell_support_windows, hkind, herr,
      resolve_windows_command_fallback, hext]
  · intro kind hkind
    simp [spawn_command_with_shell_support_windows, hkind]
  · simp [should_try_windows_fallback, or_assoc]

/-- Witness for C4: direct spawn of the extension-less `tool` fails with
OS error 2; the sibling `tool.bat` exists, so the launcher runs it
through `cmd.exe /C` and succeeds. -/
theorem claim_C4_witness :
    pathExtension "tool" = none
    ∧ should_try_windows_fallback ⟨"nf", some 2⟩ = true
    ∧ (fun program _ =>
        if program = "tool" then .error ⟨"nf", some 2⟩ else .ok ⟨0⟩ : Spawn) "tool" ["x"] =
        .error ⟨"nf", some 2⟩
    ∧ spawn_command_with_shell_support_windows
        (fun program _ => if program = "tool" then .error ⟨"nf", some 2⟩ else .ok ⟨0⟩)
        (fun s => s = "tool.bat") "tool" ["x"] = .ok ⟨0⟩ := by
  refine ⟨by decide, by decide, rfl, ?_⟩
  have h := (claim_C4
      (fun program _ => if program = "tool" then .error ⟨"nf", some 2⟩ else .ok ⟨0⟩)
      (fun s => s = "tool.bat") "tool" ["x"] ⟨"nf", some 2⟩ rfl).1 (by decide) (by decide)
  rw [h]
  rfl


/-! ## Locator theorems: `find_in_path` -/

/-- A guarded `findSome?` probe over images is `find?` over the mapped
list. -/
theorem findSome?_if_map {α β : Type} (p : β → Bool) (f : α → β) (l : List α) :
    l.findSome? (fun x => if p (f x) then some (f x) else none) =
      List.find? p (l.map f) := by
  induction l with
  | nil => rfl
  | cons a t ih =>
    by_cases h : p (f a) = true
    · simp [List.findSome?_cons, List.find?, h]
    · have h' : p (f a) = false := by simpa using h
      simp [List.findSome?_cons, List.find?, h', ih]

/-- The directory loop probes, in order, the candidates of each
directory, and returns the first hit. -/
theorem find_in_path_loop_eq (isWindows : Bool) (is_file : String → Bool)
    (has_extension : Bool) (command : String) :
    ∀ dirs : List String,
      find_in_path_loop isWindows is_file has_extension command dirs =
        List.find? is_file (dirs.flatMap (dirCandidates isWindows has_extension command)) := by
  intro dirs
  induction dirs with
  | nil => rfl
  | cons dir rest ih =>
    rw [find_in_path_loop, List.flatMap_cons, List.find?_append]
    by_cases hc : is_file (pathJoin dir command) = true
    · simp [dirCandidates, List.find?, hc, Option.or]
    · have hc' : is_file (pathJoin dir command) = false := by simpa using hc
      by_cases hw : (isWindows && !has_extension) = true
      · simp [dirCandidates, hw, List.find?, hc', Option.or, ih]
        cases h1 : is_file (pathJoin dir (command ++ "." ++ "exe")) <;>
          cases h2 : is_file (pathJoin dir (command ++ "." ++ "cmd")) <;>
            cases h3 : is_file (pathJoin dir (command ++ "." ++ "bat")) <;>
              simp [windowsPathExts, List.findSome?_cons, h1, h2, h3]
      · have hw' : (isWindows && !has_extension) = false := by simpa using hw
        simp [dirCandidates, List.find?, hc', hw', ih, Option.or]

/-- Claim C5: `find_in_path` scans the `PATH` directories in declared
order, probing in each directory first `dir/command`, then (Windows only,
extension-less command only) `dir/command.exe`, `.cmd`, `.bat` in that
fixed order, and returns the first candidate that is a file (`none` when
nothing hits); in particular with search path `[A, B]` and the target
present in both, the match from `A` wins. -/
theorem claim_C5 (isWindows : Bool) (is_file : String → Bool) (env : Env)
    (command path_var A B : String) :
    (env "PATH" = some path_var →
      find_in_path isWindows is_file env command =
        List.find? is_file ((splitPaths isWindows path_var).flatMap
          (dirCandidates isWindows (pathExtension command).isSome command)))
    ∧ (is_file (pathJoin A command) = true → is_file (pathJoin B command) = true →
        find_in_path_loop isWindows is_file (pathExtension command).isSome command [A, B] =
          some (pathJoin A command))
    ∧ (∀ dir, dirCandidates true false command dir =
        [pathJoin dir command, pathJoin dir (command ++ "." ++ "exe"),
          pathJoin dir (command ++ "." ++ "cmd"), pathJoin dir (command ++ "." ++ "bat")])
    ∧ (∀ dir has_extension, dirCandidates false has_extension command dir =
        [pathJoin dir command])
    ∧ (∀ dir, dirCandidates true true command dir = [pathJoin dir command]) := by
  refine ⟨?_, ?_, fun dir => rfl, fun dir has_extension => rfl, fun dir => rfl⟩
  · intro h
    simp [find_in_path, h, find_in_path_loop_eq]
  · intro hA _
    rw [find_in_path_loop]
    simp [hA]

/-- Witness for C5: `PATH = "A:B"` on the non-Windows platform with the
target present in both directories; the hit from `A` is returned. -/
theorem claim_C5_witness :
    ((fun v => if v = "PATH" then some "A:B" else none : Env) "PATH" = some "A:B"
      ∧ find_in_path false (fun s => s = "A/code" || s = "B/code")
          (fun v => if v = "PATH" then some "A:B" else none) "code" =
          List.find? (fun s => s = "A/code" || s = "B/code")
            ((splitPaths false "A:B").flatMap
              (dirCandidates false (pathExtension "code").isSome "code")))
    ∧ ((fun s => s = "A/code" || s = "B/code") (pathJoin "A" "code") = true
      ∧ (fun s => s = "A/code" || s = "B/code") (pathJoin "B" "code") = true
      ∧ find_in_path_loop false (fun s => s = "A/code" || s = "B/code")
          (pathExtension "code").isSome "code" ["A", "B"] = some (pathJoin "A" "code")) := by
  refine ⟨⟨rfl, ?_⟩, ⟨by decide, by decide, ?_⟩⟩
  · exact (claim_C5 false (fun s => s = "A/code" || s = "B/code")
      (fun v => if v = "PATH" then some "A:B" else none) "code" "A:B" "A" "B").1 rfl
  · exact (claim_C5 false (fun s => s = "A/code" || s = "B/code")
      (fun v => if v = "PATH" then some "A:B" else none) "code" "A:B" "A" "B").2.1
      (by decide) (by decide)


/-! ## Order facts for the toolbox comparator -/

theorem charListLe_refl : ∀ l : List Char, charListLe l l = true := by
  intro l
  induction l with
  | nil => rfl
  | cons a t ih => simp [charListLe, lt_irrefl, ih]

theorem charListLe_total : ∀ a b : List Char, charListLe a b = true ∨ charListLe b a = true := by
  intro a
  induction a with
  | nil => intro b; exact Or.inl rfl
  | cons x as ih =>
    intro b
    cases b with
    | nil => exact Or.inr rfl
    | cons y bs =>
      rcases lt_trichotomy x y with h | h | h
      · exact Or.inl (by simp [charListLe, h])
      · subst h
        rcases ih bs with h2 | h2
        · exact Or.inl (by simp [charListLe, lt_irrefl, h2])
        · exact Or.inr (by simp [charListLe, lt_irrefl, h2])
      · exact Or.inr (by simp [charListLe, h])

theorem charListLe_trans : ∀ a b c : List Char,
    charListLe a b = true → charListLe b c = true → charListLe a c = true := by
  intro a
  induction a with
  | nil => intro b c _ _; rfl
  | cons x as ih =>
    intro b c hab hbc
    cases b with
    | nil => simp [charListLe] at hab
    | cons y bs =>
      cases c with
      | nil => simp [charListLe] at hbc
      | cons z cs =>
        rcases lt_trichotomy x y with hxy | hxy | hxy
        · rcases lt_trichotomy y z with hyz | hyz | hyz
          · simp [charListLe, lt_trans hxy hyz]
          · subst hyz; simp [charListLe, hxy]
          · simp [charListLe, asymm hyz, hyz] at hbc
        · subst hxy
          simp only [charListLe, lt_irrefl, if_false] at hab
          rcases lt_trichotomy x z with hxz | hxz | hxz
          · simp [charListLe, hxz]
          · subst hxz
            simp only [charListLe, lt_irrefl, if_false] at hbc ⊢
            exact ih bs cs hab hbc
          · simp [charListLe, asymm hxz, hxz] at hbc
        · simp [charListLe, asymm hxy, hxy] at hab

theorem strLe_refl (a : String) : strLe a a = true := charListLe_refl a.data

theorem optStrLe_total : ∀ a b : Option String, optStrLe a b = true ∨ optStrLe b a = true := by
  intro a b
  cases a with
  | none => exact Or.inl rfl
  | some x =>
    cases b with
    | none => exact Or.inr rfl
    | some y => exact charListLe_total x.data y.data

theorem optStrLe_trans : ∀ a b c : Option String,
    optStrLe a b = true → optStrLe b c = true → optStrLe a c = true := by
  intro a b c hab hbc
  cases a with
  | none => rfl
  | some x =>
    cases b with
    | none => simp [optStrLe] at hab
    | some y =>
      cases c with
      | none => simp [optStrLe] at hbc
      | some z => exact charListLe_trans x.data y.data z.data hab hbc

theorem fileNameLe_total (a b : String) : fileNameLe a b = true ∨ fileNameLe b a = true :=
  optStrLe_total (fileName a) (fileName b)

theorem fileNameLe_trans (a b c : String) (hab : fileNameLe a b = true)
    (hbc : fileNameLe b c = true) : fileNameLe a c = true :=
  optStrLe_trans (fileName a) (fileName b) (fileName c) hab hbc

/-- In a sorted list, the last element is a greatest element. -/
theorem pairwise_getLast?_max {α : Type} {r : α → α → Prop} :
    ∀ (l : List α), l.Pairwise r → ∀ m, l.getLast? = some m → ∀ x ∈ l, x = m ∨ r x m := by
  intro l
  induction l with
  | nil => intro _ m hm; simp at hm
  | cons a t ih =>
    intro hp m hm x hx
    rcases List.pairwise_cons.mp hp with ⟨ha, ht⟩
    cases t with
    | nil =>
      simp at hm hx
      subst hm
      exact Or.inl hx
    | cons b t2 =>
      rw [List.getLast?_cons_cons] at hm
      rcases List.mem_cons.mp hx with hxa | hxm
      · right
        have hne : (b :: t2 : List α) ≠ [] := by simp
        rw [List.getLast?_eq_getLast _ hne] at hm
        have hm' : (b :: t2).getLast hne = m := Option.some_inj.mp hm
        rw [hxa, ← hm']
        exact ha _ (List.getLast_mem hne)
      · exact ih ht m hm x hxm

/-- `takeWhile` crosses a satisfying block and stops at the first
failing element. -/
theorem takeWhile_append_stop {p : Char → Bool} :
    ∀ (l : List Char) (x : Char) (t : List Char), (∀ c ∈ l, p c = true) → p x = false →
      List.takeWhile p (l ++ x :: t) = l := by
  intro l
  induction l with
  | nil => intro x t _ hx; simp [List.takeWhile_cons, hx]
  | cons a l2 ih =>
    intro x t h hx
    have ha : p a = true := h a (by simp)
    simp only [List.cons_append, List.takeWhile_cons, ha, if_true]
    rw [ih x t (fun c hc => h c (by simp [hc])) hx]

/-- The file name of a joined path is the joined entry name (for entry
names without separators). -/
theorem fileName_pathJoin (base n : String) (hne : n ≠ "")
    (hsep : ∀ c ∈ n.data, isSepChar c = false) :
    fileName (pathJoin base n) = some n := by
  have hdata : (pathJoin base n).data = base.data ++ '/' :: n.data := by
    show (base ++ "/" ++ n).data = base.data ++ '/' :: n.data
    rw [String.data_append, String.data_append,
      show "/".data = ['/'] from by decide, List.append_assoc]
    rfl
  unfold fileName
  rw [hdata, List.reverse_append, List.reverse_cons, List.append_assoc]
  have hstop :
      List.takeWhile (fun c => !isSepChar c) (n.data.reverse ++ '/' :: base.data.reverse) =
        n.data.reverse := by
    refine takeWhile_append_stop n.data.reverse '/' base.data.reverse ?_ (by simp [isSepChar])
    intro c hc
    simp [hsep c (List.mem_reverse.mp hc)]
  rw [show (['/'] ++ base.data.reverse) = '/' :: base.data.reverse from rfl, hstop,
    List.reverse_reverse]
  have hnonempty : n.data.isEmpty = false := by
    cases hn : n.data with
    | nil =>
      exact absurd (String.ext (by rw [hn])) hne
    | cons _ _ => rfl
  simp [hnonempty]


/-! ## Toolbox locator theorems -/

/-- Unfolding of the toolbox locator under a readable channel
directory. -/
theorem find_jetbrains_toolbox_exe_eq (fs : FS) (env : Env)
    (product_code exe_name localAppData : String) (entries : List String)
    (henv : env "LOCALAPPDATA" = some localAppData)
    (hdir : fs.isDir (toolboxBase localAppData product_code) = true)
    (hread : fs.readDir (toolboxBase localAppData product_code) = some entries) :
    find_jetbrains_toolbox_exe fs env product_code exe_name =
      (match (sortByFileName
          ((toolboxQualifying fs (toolboxBase localAppData product_code) exe_name entries).map
            (pathJoin (toolboxBase localAppData product_code)))).getLast? with
      | none => none
      | some latest =>
        if fs.isFile (pathJoin (pathJoin latest "bin") exe_name) then
          some (pathJoin (pathJoin latest "bin") exe_name)
        else none) := by
  unfold find_jetbrains_toolbox_exe
  rw [henv]
  simp only [hdir, hread, Bool.not_true, Bool.false_eq_true, if_false, List.filter_map]
  rfl

/-- The sorted-selection core: with every qualifying entry name
separator-free and its `bin/<exe>` a file, the locator's tail picks a
greatest entry. -/
theorem toolbox_select (fs : FS) (base exe_name : String) (qual : List String)
    (hnames : ∀ n ∈ qual, n ≠ "" ∧ ∀ c ∈ n.data, isSepChar c = false)
    (hfile : ∀ n ∈ qual,
      fs.isFile (pathJoin (pathJoin (pathJoin base n) "bin") exe_name) = true)
    (hne : qual ≠ []) :
    ∃ m ∈ qual, (∀ n ∈ qual, strLe n m = true) ∧
      (match (sortByFileName (qual.map (pathJoin base))).getLast? with
        | none => none
        | some latest =>
          if fs.isFile (pathJoin (pathJoin latest "bin") exe_name) then
            some (pathJoin (pathJoin latest "bin") exe_name)
          else none) =
        some (pathJoin (pathJoin (pathJoin base m) "bin") exe_name) := by
  have hbuilds_ne : qual.map (pathJoin base) ≠ [] := by simpa using hne
  have hperm : (sortByFileName (qual.map (pathJoin base))).Perm (qual.map (pathJoin base)) :=
    List.perm_insertionSort _ _
  have hsorted_ne : sortByFileName (qual.map (pathJoin base)) ≠ [] := by
    intro hnil
    rw [hnil] at hperm
    exact hbuilds_ne hperm.symm.eq_nil
  have hlast : (sortByFileName (qual.map (pathJoin base))).getLast? =
      some ((sortByFileName (qual.map (pathJoin base))).getLast hsorted_ne) :=
    List.getLast?_eq_getLast _ hsorted_ne
  have hlatest_mem : (sortByFileName (qual.map (pathJoin base))).getLast hsorted_ne ∈
      qual.map (pathJoin base) :=
    hperm.mem_iff.mp (List.getLast_mem hsorted_ne)
  obtain ⟨m, hm_qual, hm_eq⟩ := List.mem_map.mp hlatest_mem
  haveI htot : IsTotal String (fun l r => fileNameLe l r = true) := ⟨fileNameLe_total⟩
  haveI htrans : IsTrans String (fun l r => fileNameLe l r = true) :=
    ⟨fun a b c => fileNameLe_trans a b c⟩
  have hsorted : List.Pairwise (fun l r => fileNameLe l r = true)
      (sortByFileName (qual.map (pathJoin base))) :=
    List.sorted_insertionSort _ _
  refine ⟨m, hm_qual, ?_, ?_⟩
  · intro n hn
    have hx : pathJoin base n ∈ sortByFileName (qual.map (pathJoin base)) :=
      hperm.mem_iff.mpr (List.mem_map_of_mem _ hn)
    have hmax := pairwise_getLast?_max _ hsorted _ hlast (pathJoin base n) hx
    have hfn : fileName (pathJoin base n) = some n :=
      fileName_pathJoin base n (hnames n hn).1 (hnames n hn).2
    have hfm : fileName (pathJoin base m) = some m :=
      fileName_pathJoin base m (hnames m hm_qual).1 (hnames m hm_qual).2
    rcases hmax with heq | hle
    · have : some n = some m := by
        rw [← hfn, ← hfm, heq, ← hm_eq]
      rw [Option.some_inj.mp this]
      exact strLe_refl m
    · rw [← hm_eq] at hle
      unfold fileNameLe at hle
      rw [hfn, hfm] at hle
      exact hle
  · rw [hlast, ← hm_eq]
    simp [hfile m hm_qual]

/-- Claim C6: the toolbox locator lists the immediate subdirectories of
`root/product_code/ch-0`, keeps those containing `subdir/bin/exe_name`
as a file, sorts them by directory name ascending, selects the
lexicographically greatest, and returns its `bin/exe_name` path; it
returns `none` when no candidate qualifies.  With string-sortable
candidates `["1.2", "1.10", "2.0"]` it selects `"2.0"`. -/
theorem claim_C6 (fs : FS) (env : Env) (product_code exe_name localAppData : String)
    (entries : List String)
    (henv : env "LOCALAPPDATA" = some localAppData)
    (hdir : fs.isDir (toolboxBase localAppData product_code) = true)
    (hread : fs.readDir (toolboxBase localAppData product_code) = some entries)
    (hnames : ∀ n ∈ entries, n ≠ "" ∧ ∀ c ∈ n.data, isSepChar c = false) :
    (toolboxQualifying fs (toolboxBase localAppData product_code) exe_name entries = [] →
      find_jetbrains_toolbox_exe fs env product_code exe_name = none)
    ∧ (toolboxQualifying fs (toolboxBase localAppData product_code) exe_name entries ≠ [] →
      ∃ m ∈ toolboxQualifying fs (toolboxBase localAppData product_code) exe_name entries,
        (∀ n ∈ toolboxQualifying fs (toolboxBase localAppData product_code) exe_name entries,
          strLe n m = true) ∧
        find_jetbrains_toolbox_exe fs env product_code exe_name =
          some (pathJoin (pathJoin (pathJoin (toolboxBase localAppData product_code) m) "bin")
            exe_name))
    ∧ find_jetbrains_toolbox_exe
        { isFile := fun s => s = "/la/JetBrains/Toolbox/apps/X/ch-0/1.2/bin/x.exe" ||
            s = "/la/JetBrains/Toolbox/apps/X/ch-0/1.10/bin/x.exe" ||
            s = "/la/JetBrains/Toolbox/apps/X/ch-0/2.0/bin/x.exe",
          isDir := fun s => s = "/la/JetBrains/Toolbox/apps/X/ch-0" ||
            s = "/la/JetBrains/Toolbox/apps/X/ch-0/1.2" ||
            s = "/la/JetBrains/Toolbox/apps/X/ch-0/1.10" ||
            s = "/la/JetBrains/Toolbox/apps/X/ch-0/2.0",
          pathExists := fun _ => false,
          readDir := fun s =>
            if s = "/la/JetBrains/Toolbox/apps/X/ch-0" then some ["1.2", "1.10", "2.0"]
            else none }
        (fun v => if v = "LOCALAPPDATA" then some "/la" else none) "X" "x.exe" =
      some "/la/JetBrains/Toolbox/apps/X/ch-0/2.0/bin/x.exe" := by
  refine ⟨?_, ?_, by decide⟩
  · intro h0
    rw [find_jetbrains_toolbox_exe_eq fs env product_code exe_name localAppData entries henv
      hdir hread, h0]
    rfl
  · intro hne
    have hnames' : ∀ n ∈ toolboxQualifying fs (toolboxBase localAppData product_code) exe_name
        entries, n ≠ "" ∧ ∀ c ∈ n.data, isSepChar c = false := by
      intro n hn
      have hn' : n ∈ entries := by
        have := hn
        unfold toolboxQualifying at this
        exact (List.mem_filter.mp this).1
      exact hnames n hn'
    have hfile : ∀ n ∈ toolboxQualifying fs (toolboxBase localAppData product_code) exe_name
        entries,
        fs.isFile (pathJoin (pathJoin (pathJoin (toolboxBase localAppData product_code) n) "bin")
          exe_name) = true := by
      intro n hn
      have := hn
      unfold toolboxQualifying at this
      have hp := (List.mem_filter.mp this).2
      simp at hp
      exact hp.2
    obtain ⟨m, hm, hmax, hres⟩ := toolbox_select fs (toolboxBase localAppData product_code)
      exe_name (toolboxQualifying fs (toolboxBase localAppData product_code) exe_name entries)
      hnames' hfile hne
    refine ⟨m, hm, hmax, ?_⟩
    rw [find_jetbrains_toolbox_exe_eq fs env product_code exe_name localAppData entries henv
      hdir hread]
    exact hres


/-- Witness for C6: the demo channel directory with candidate builds
`1.2`, `1.10`, `2.0`; the locator returns the greatest candidate's
`bin/x.exe`. -/
theorem claim_C6_witness :
    ((fun v => if v = "LOCALAPPDATA" then some "/la" else none : Env) "LOCALAPPDATA" =
        some "/la")
    ∧ (FS.mk
        (fun s => s = "/la/JetBrains/Toolbox/apps/X/ch-0/1.2/bin/x.exe" ||
          s = "/la/JetBrains/Toolbox/apps/X/ch-0/1.10/bin/x.exe" ||
          s = "/la/JetBrains/Toolbox/apps/X/ch-0/2.0/bin/x.exe")
        (fun s => s = "/la/JetBrains/Toolbox/apps/X/ch-0" ||
          s = "/la/JetBrains/Toolbox/apps/X/ch-0/1.2" ||
          s = "/la/JetBrains/Toolbox/apps/X/ch-0/1.10" ||
          s = "/la/JetBrains/Toolbox/apps/X/ch-0/2.0")
        (fun _ => false)
        (fun s =>
          if s = "/la/JetBrains/Toolbox/apps/X/ch-0" then some ["1.2", "1.10", "2.0"]
          else none)).isDir (toolboxBase "/la" "X") = true
    ∧ (∀ n ∈ ["1.2", "1.10", "2.0"], n ≠ "" ∧ ∀ c ∈ n.data, isSepChar c = false)
    ∧ (∃ m ∈ toolboxQualifying
          (FS.mk
            (fun s => s = "/la/JetBrains/Toolbox/apps/X/ch-0/1.2/bin/x.exe" ||
              s = "/la/JetBrains/Toolbox/apps/X/ch-0/1.10/bin/x.exe" ||
              s = "/la/JetBrains/Toolbox/apps/X/ch-0/2.0/bin/x.exe")
            (fun s => s = "/la/JetBrains/Toolbox/apps/X/ch-0" ||
              s = "/la/JetBrains/Toolbox/apps/X/ch-0/1.2" ||
              s = "/la/JetBrains/Toolbox/apps/X/ch-0/1.10" ||
              s = "/la/JetBrains/Toolbox/apps/X/ch-0/2.0")
            (fun _ => false)
            (fun s =>
              if s = "/la/JetBrains/Toolbox/apps/X/ch-0" then some ["1.2", "1.10", "2.0"]
              else none))
          (toolboxBase "/la" "X") "x.exe" ["1.2", "1.10", "2.0"],
        (∀ n ∈ toolboxQualifying
            (FS.mk
              (fun s => s = "/la/JetBrains/Toolbox/apps/X/ch-0/1.2/bin/x.exe" ||
                s = "/la/JetBrains/Toolbox/apps/X/ch-0/1.10/bin/x.exe" ||
                s = "/la/JetBrains/Toolbox/apps/X/ch-0/2.0/bin/x.exe")
              (fun s => s = "/la/JetBrains/Toolbox/apps/X/ch-0" ||
                s = "/la/JetBrains/Toolbox/apps/X/ch-0/1.2" ||
                s = "/la/JetBrains/Toolbox/apps/X/ch-0/1.10" ||
                s = "/la/JetBrains/Toolbox/apps/X/ch-0/2.0")
              (fun _ => false)
              (fun s =>
                if s = "/la/JetBrains/Toolbox/apps/X/ch-0" then some ["1.2", "1.10", "2.0"]
                else none))
            (toolboxBase "/la" "X") "x.exe" ["1.2", "1.10", "2.0"], strLe n m = true) ∧
        find_jetbrains_toolbox_exe
          (FS.mk
            (fun s => s = "/la/JetBrains/Toolbox/apps/X/ch-0/1.2/bin/x.exe" ||
              s = "/la/JetBrains/Toolbox/apps/X/ch-0/1.10/bin/x.exe" ||
              s = "/la/JetBrains/Toolbox/apps/X/ch-0/2.0/bin/x.exe")
            (fun s => s = "/la/JetBrains/Toolbox/apps/X/ch-0" ||
              s = "/la/JetBrains/Toolbox/apps/X/ch-0/1.2" ||
              s = "/la/JetBrains/Toolbox/apps/X/ch-0/1.10" ||
              s = "/la/JetBrains/Toolbox/apps/X/ch-0/2.0")
            (fun _ => false)
            (fun s =>
              if s = "/la/JetBrains/Toolbox/apps/X/ch-0" then some ["1.2", "1.10", "2.0"]
              else none))
          (fun v => if v = "LOCALAPPDATA" then some "/la" else none) "X" "x.exe" =
          some (pathJoin (pathJoin (pathJoin (toolboxBase "/la" "X") m) "bin") "x.exe")) := by
  refine ⟨rfl, by decide, by decide, ?_⟩
  exact (claim_C6 _ _ "X" "x.exe" "/la" ["1.2", "1.10", "2.0"] rfl (by decide) (by decide)
    (by decide)).2.1 (by decide)

/-! ## Editor facade theorems -/

/-- Counterexample to claim C7 as stated: when the launch-by-name attempt
fails with a spawn-level OS error, the bundle-identifier attempt is not
tried — the call aborts with the prefixed opener error even though the
identifier launch would succeed. -/
theorem claim_C7_counterexample :
    open_in_editor .macos
        (fun _ args =>
          if args = ["-a", "A", "/p"] then .error ⟨"boom", none⟩
          else if args = ["-b", "B", "/p"] then .ok ⟨0⟩ else .ok ⟨1⟩)
        (FS.mk (fun _ => false) (fun _ => false) (fun _ => false) (fun _ => none))
        ⟨"/p", some "A", some "B", none, none⟩ = .error ("打开编辑器失败: " ++ "boom")
    ∧ (fun _ args =>
        if args = ["-a", "A", "/p"] then .error ⟨"boom", none⟩
        else if args = ["-b", "B", "/p"] then .ok ⟨0⟩ else .ok ⟨1⟩ : Spawn)
        "/usr/bin/open" ["-b", "B", "/p"] = .ok ⟨0⟩
    ∧ open_in_editor .macos
        (fun _ args =>
          if args = ["-a", "A", "/p"] then .error ⟨"boom", none⟩
          else if args = ["-b", "B", "/p"] then .ok ⟨0⟩ else .ok ⟨1⟩)
        (FS.mk (fun _ => false) (fun _ => false) (fun _ => false) (fun _ => none))
        ⟨"/p", some "A", some "B", none, none⟩ ≠ .ok () := by
  refine ⟨rfl, rfl, ?_⟩
  intro h
  exact Except.noConfusion
    (show (Except.error ("打开编辑器失败: " ++ "boom") : Except String Unit) = .ok () from h)

/-- Claim C7 (amended): on macOS the editor opener tries launch-by-name
first (when a name is given), falls through to launch-by-identifier only
on a clean non-zero exit of the name attempt (a spawn-level OS error in
either opener attempt aborts the call with the prefixed opener error),
then to the command override resolved via the argument builder and
launched via the launcher, and returns the fixed failure message when
neither an app designation nor an override resolves. -/
theorem claim_C7 (osSpawn : Spawn) (fs : FS) (params : EditorOpenParams) :
    (∀ a, params.app_name = some a →
      (∀ e, osSpawn "/usr/bin/open" ["-a", a, params.path] = .error e →
        open_in_editor .macos osSpawn fs params = .error ("打开编辑器失败: " ++ e.text))
      ∧ (∀ s, osSpawn "/usr/bin/open" ["-a", a, params.path] = .ok s → s.success = true →
          open_in_editor .macos osSpawn fs params = .ok ())
      ∧ (∀ s, osSpawn "/usr/bin/open" ["-a", a, params.path] = .ok s → s.success = false →
          open_in_editor .macos osSpawn fs params =
            editor_bundle_stage .macos osSpawn fs params))
    ∧ (params.app_name = none →
        open_in_editor .macos osSpawn fs params = editor_bundle_stage .macos osSpawn fs params)
    ∧ (∀ b, params.bundle_id = some b →
        (∀ e, osSpawn "/usr/bin/open" ["-b", b, params.path] = .error e →
          editor_bundle_stage .macos osSpawn fs params =
            .error ("打开编辑器失败: " ++ e.text))
        ∧ (∀ s, osSpawn "/usr/bin/open" ["-b", b, params.path] = .ok s → s.success = true →
            editor_bundle_stage .macos osSpawn fs params = .ok ())
        ∧ (∀ s, osSpawn "/usr/bin/open" ["-b", b, params.path] = .ok s → s.success = false →
            editor_bundle_stage .macos osSpawn fs params =
              editor_command_stage .macos osSpawn fs params))
    ∧ (params.bundle_id = none →
        editor_bundle_stage .macos osSpawn fs params =
          editor_command_stage .macos osSpawn fs params)
    ∧ (∀ cp, params.command_path = some cp →
        editor_command_stage .macos osSpawn fs params =
          run_command_with_shell_support osSpawn cp
            (build_command_arguments params.arguments params.path)
            "打开编辑器失败:" "打开编辑器失败")
    ∧ (params.command_path = none →
        editor_command_stage .macos osSpawn fs params = .error "未能打开编辑器") := by
  refine ⟨?_, ?_, ?_, ?_, ?_, ?_⟩
  · intro a ha
    refine ⟨?_, ?_, ?_⟩
    · intro e he
      simp [open_in_editor, ha, he]
    · intro s hs hsucc
      simp [open_in_editor, ha, hs, hsucc]
    · intro s hs hsucc
      simp [open_in_editor, ha, hs, hsucc]
  · intro ha
    simp [open_in_editor, ha]
  · intro b hb
    refine ⟨?_, ?_, ?_⟩
    · intro e he
      simp [editor_bundle_stage, hb, he]
    · intro s hs hsucc
      simp [editor_bundle_stage, hb, hs, hsucc]
    · intro s hs hsucc
      simp [editor_bundle_stage, hb, hs, hsucc]
  · intro hb
    simp [editor_bundle_stage, hb]
  · intro cp hcp
    simp [editor_command_stage, hcp, spawn_command_with_shell_support]
  · intro hcp
    simp [editor_command_stage, hcp]

/-- Witness for C7: the name attempt exits 1, the identifier attempt
exits 0, so the call succeeds through the bundle stage. -/
theorem claim_C7_witness :
    ((⟨"/p", some "A", some "B", none, none⟩ : EditorOpenParams).app_name = some "A")
    ∧ ((fun _ args => if args = ["-a", "A", "/p"] then .ok ⟨1⟩ else .ok ⟨0⟩ : Spawn)
        "/usr/bin/open" ["-a", "A", "/p"] = .ok ⟨1⟩)
    ∧ ((⟨1⟩ : ExitStatus).success = false)
    ∧ ((⟨"/p", some "A", some "B", none, none⟩ : EditorOpenParams).bundle_id = some "B")
    ∧ ((fun _ args => if args = ["-a", "A", "/p"] then .ok ⟨1⟩ else .ok ⟨0⟩ : Spawn)
        "/usr/bin/open" ["-b", "B", "/p"] = .ok ⟨0⟩)
    ∧ ((⟨0⟩ : ExitStatus).success = true)
    ∧ open_in_editor .macos
        (fun _ args => if args = ["-a", "A", "/p"] then .ok ⟨1⟩ else .ok ⟨0⟩)
        (FS.mk (fun _ => false) (fun _ => false) (fun _ => false) (fun _ => none))
        ⟨"/p", some "A", some "B", none, none⟩ = .ok () := by
  refine ⟨rfl, rfl, by decide, rfl, rfl, by decide, ?_⟩
  have h1 := ((claim_C7
      (fun _ args => if args = ["-a", "A", "/p"] then .ok ⟨1⟩ else .ok ⟨0⟩)
      (FS.mk (fun _ => false) (fun _ => false) (fun _ => false) (fun _ => none))
      ⟨"/p", some "A", some "B", none, none⟩).1 "A" rfl).2.2 ⟨1⟩ rfl (by decide)
  have h2 := ((claim_C7
      (fun _ args => if args = ["-a", "A", "/p"] then .ok ⟨1⟩ else .ok ⟨0⟩)
      (FS.mk (fun _ => false) (fun _ => false) (fun _ => false) (fun _ => none))
      ⟨"/p", some "A", some "B", none, none⟩).2.2.1 "B" rfl).2.1 ⟨0⟩ rfl (by decide)
  exact h1.trans h2


/-! ## Terminal facade theorems -/

/-- Claim C8: on Windows without an override, the modern terminal host
`wt.exe -d <dir>` is tried first; only when that attempt does not succeed
(spawn error or non-zero exit) is `powershell.exe -NoExit -Command
Set-Location ...` invoked; with an override present the platform default
is bypassed and the override runs through the argument builder and the
launcher. -/
theorem claim_C8 (osSpawn : Spawn) (fs : FS) (params : TerminalOpenParams) :
    (∀ cp, params.command_path = some cp →
      open_in_terminal .windows osSpawn fs params =
        run_command_with_shell_support (spawn_command_with_shell_support .windows osSpawn fs)
          cp (build_command_arguments params.arguments params.path)
          "无法打开终端:" "终端打开失败")
    ∧ (params.command_path = none →
        (∀ s, osSpawn "wt.exe" ["-d", params.path] = .ok s → s.success = true →
          open_in_terminal .windows osSpawn fs params = .ok ())
        ∧ (∀ s, osSpawn "wt.exe" ["-d", params.path] = .ok s → s.success = false →
            open_in_terminal .windows osSpawn fs params =
              (match osSpawn "powershell.exe"
                  ["-NoExit", "-Command", powershellLocationCommand params.path] with
                | .error err => .error ("无法打开终端: " ++ err.text)
                | .ok status => if status.success then .ok () else .error "终端打开失败"))
        ∧ (∀ e, osSpawn "wt.exe" ["-d", params.path] = .error e →
            open_in_terminal .windows osSpawn fs params =
              (match osSpawn "powershell.exe"
                  ["-NoExit", "-Command", powershellLocationCommand params.path] with
                | .error err => .error ("无法打开终端: " ++ err.text)
                | .ok status => if status.success then .ok () else .error "终端打开失败"))) := by
  refine ⟨?_, ?_⟩
  · intro cp hcp
    simp [open_in_terminal, hcp]
  · intro hcp
    refine ⟨?_, ?_, ?_⟩
    · intro s hs hsucc
      simp [open_in_terminal, open_windows_terminal, hcp, hs, hsucc]
    · intro s hs hsucc
      simp [open_in_terminal, open_windows_terminal, hcp, hs, hsucc]
    · intro e he
      simp [open_in_terminal, open_windows_terminal, hcp, he]

/-- Witness for C8: `wt.exe` exits 1, `powershell.exe` exits 0, so the
call falls back to the legacy host and succeeds; with an override, the
call becomes a launcher run. -/
theorem claim_C8_witness :
    ((⟨"/d", none, none⟩ : TerminalOpenParams).command_path = none)
    ∧ ((fun program _ => if program = "wt.exe" then .ok ⟨1⟩ else .ok ⟨0⟩ : Spawn)
        "wt.exe" ["-d", "/d"] = .ok ⟨1⟩)
    ∧ ((⟨1⟩ : ExitStatus).success = false)
    ∧ open_in_terminal .windows
        (fun program _ => if program = "wt.exe" then .ok ⟨1⟩ else .ok ⟨0⟩)
        (FS.mk (fun _ => false) (fun _ => false) (fun _ => false) (fun _ => none))
        ⟨"/d", none, none⟩ = .ok ()
    ∧ ((⟨"/d", some "alacritty", none⟩ : TerminalOpenParams).command_path = some "alacritty"
      ∧ open_in_terminal .windows
          (fun program _ => if program = "wt.exe" then .ok ⟨1⟩ else .ok ⟨0⟩)
          (FS.mk (fun _ => false) (fun _ => false) (fun _ => false) (fun _ => none))
          ⟨"/d", some "alacritty", none⟩ =
        run_command_with_shell_support
          (spawn_command_with_shell_support .windows
            (fun program _ => if program = "wt.exe" then .ok ⟨1⟩ else .ok ⟨0⟩)
            (FS.mk (fun _ => false) (fun _ => false) (fun _ => false) (fun _ => none)))
          "alacritty" (build_command_arguments none "/d") "无法打开终端:" "终端打开失败") := by
  refine ⟨rfl, rfl, by decide, ?_, rfl, ?_⟩
  · have h := ((claim_C8
        (fun program _ => if program = "wt.exe" then .ok ⟨1⟩ else .ok ⟨0⟩)
        (FS.mk (fun _ => false) (fun _ => false) (fun _ => false) (fun _ => none))
        ⟨"/d", none, none⟩).2 rfl).2.1 ⟨1⟩ rfl (by decide)
    exact h.trans rfl
  · exact (claim_C8
      (fun program _ => if program = "wt.exe" then .ok ⟨1⟩ else .ok ⟨0⟩)
      (FS.mk (fun _ => false) (fun _ => false) (fun _ => false) (fun _ => none))
      ⟨"/d", some "alacritty", none⟩).1 "alacritty" rfl

/-! ## Discovery theorems -/

/-- One step of the Linux preset list as an append. -/
theorem add_linux_preset_eq (is_file : String → Bool) (env : Env)
    (presets : List DevToolPreset) (id name command : String) :
    add_linux_preset is_file env presets id name command =
      presets ++ ((find_in_path false is_file env command).map (build_linux_preset id name)).toList := by
  unfold add_linux_preset
  cases find_in_path false is_file env command <;> simp

/-- `filterMap` over a cons, phrased with `Option.toList`. -/
theorem filterMap_cons_toList {α β : Type} (f : α → Option β) (a : α) (l : List α) :
    List.filterMap f (a :: l) = (f a).toList ++ List.filterMap f l := by
  cases h : f a <;> simp [List.filterMap_cons, h]

/-- Claim C9: discovery is deterministic and idempotent — for a fixed
filesystem and environment two calls return the same ordered list (the
embedding is a pure function of the probed state, so it cannot mutate
state or fail) — and on Linux the result is exactly the fixed ordered
catalog filtered to the tools `find_in_path` locates: an absent tool is
skipped, never an error. -/
theorem claim_C9 (platform : Platform) (fs : FS) (env : Env) :
    list_dev_tool_presets platform fs env = list_dev_tool_presets platform fs env
    ∧ list_dev_tool_presets .linux fs env =
        linuxCatalog.filterMap (fun entry =>
          (find_in_path false fs.isFile env entry.2.2).map
            (build_linux_preset entry.1 entry.2.1)) := by
  refine ⟨rfl, ?_⟩
  cases h1 : find_in_path false fs.isFile env "code" <;>
    cases h2 : find_in_path false fs.isFile env "code-insiders" <;>
      simp [list_dev_tool_presets, list_dev_tool_presets_linux, h1, h2, add_linux_preset_eq,
        linuxCatalog, filterMap_cons_toList]

/-- Claim C10: with `PATH` absent from the environment, `find_in_path`
returns `none` rather than failing, so Linux discovery emits no
PATH-located presets at all. -/
theorem claim_C10 (isWindows : Bool) (is_file : String → Bool) (env : Env) (command : String)
    (h : env "PATH" = none) :
    find_in_path isWindows is_file env command = none
    ∧ list_dev_tool_presets_linux is_file env = [] := by
  have h1 : ∀ iw cmd, find_in_path iw is_file env cmd = none := by
    intro iw cmd
    simp [find_in_path, h]
  refine ⟨h1 isWindows command, ?_⟩
  simp [list_dev_tool_presets_linux, h1, add_linux_preset_eq]

/-- Witness for C10: the empty environment. -/
theorem claim_C10_witness :
    ((fun _ => none : Env) "PATH" = none)
    ∧ find_in_path false (fun _ => false) (fun _ => none) "code" = none
    ∧ list_dev_tool_presets_linux (fun _ => false) (fun _ => none) = [] := by
  refine ⟨rfl, ?_, ?_⟩
  · exact (claim_C10 false (fun _ => false) (fun _ => none) "code" rfl).1
  · exact (claim_C10 false (fun _ => false) (fun _ => none) "code" rfl).2

end Devhaven
